import Mathlib

/-!
# Verification of the scorecheck derivation/presentation core

Shallow embedding of the decision logic in `src/frontend/views/Home.vue` and
`src/frontend/views/Team.vue` (status classification, display sorting, schedule
aggregation, record reconstruction, roster resolution, player stat projection).

Strings are modelled as `List Char` (ASCII fragment); the host functions
`Date.parse` and `Number(…)` are abstracted as parameters of type
`List Char → Option Int` (with `none` standing for `NaN`), since their full
JavaScript semantics (calendar parsing, floating point) are environment-level,
not repository code.  Everything else is translated directly from the source.
-/

namespace Scorecheck

/-- ASCII whitespace, as removed by JavaScript `String.prototype.trim`. -/
def isWs (c : Char) : Bool :=
  c.val == 32 || c.val == 9 || c.val == 10 || c.val == 13 || c.val == 11 || c.val == 12

/-- JavaScript `String.prototype.trim` (ASCII whitespace model). -/
def jsTrim (s : List Char) : List Char :=
  ((s.dropWhile isWs).reverse.dropWhile isWs).reverse

/-- JavaScript `String.prototype.toLowerCase` (ASCII model). -/
def strLower (s : List Char) : List Char :=
  s.map Char.toLower

/-- Does `needle` occur at the start of `hay`? (helper for `strIncludes`). -/
def matchesAt : List Char → List Char → Bool
  | [], _ => true
  | _ :: _, [] => false
  | a :: as, b :: bs => a == b && matchesAt as bs

/-- JavaScript `String.prototype.includes`: substring occurrence test. -/
def strIncludes (needle : List Char) : List Char → Bool
  | [] => matchesAt needle []
  | c :: rest => matchesAt needle (c :: rest) || strIncludes needle rest

/-- Decimal digit character for `n % 10` (JS number-to-string digits). -/
def digitChar (n : Nat) : Char :=
  match n with
  | 0 => '0' | 1 => '1' | 2 => '2' | 3 => '3' | 4 => '4'
  | 5 => '5' | 6 => '6' | 7 => '7' | 8 => '8' | _ => '9'

/-- Fuel-driven decimal rendering of a natural number (used by `natStr`). -/
def natStrAux : Nat → Nat → List Char
  | 0, _ => []
  | fuel + 1, n =>
    if n < 10 then [digitChar n]
    else natStrAux fuel (n / 10) ++ [digitChar (n % 10)]

/-- Decimal rendering of a natural number, as JS template interpolation
`${n}` renders a non-negative integer. `n + 1` fuel always suffices. -/
def natStr (n : Nat) : List Char :=
  natStrAux (n + 1) n

/-- Is `c` a decimal digit? -/
def isDigitB (c : Char) : Bool :=
  48 ≤ c.val && c.val ≤ 57

/-- Numeric value of a digit list (most significant first). -/
def natOfDigits (ds : List Char) : Nat :=
  ds.foldl (fun n c => 10 * n + (c.toNat - 48)) 0

/-- JavaScript `parseInt(s, 10)`: skip leading whitespace, optional sign,
longest digit prefix; `none` models `NaN` (no digits). -/
def jsParseInt (s : List Char) : Option Int :=
  let t := s.dropWhile isWs
  match t with
  | '-' :: rest =>
    let ds := rest.takeWhile isDigitB
    if ds.isEmpty then none else some (-(natOfDigits ds : Int))
  | '+' :: rest =>
    let ds := rest.takeWhile isDigitB
    if ds.isEmpty then none else some (natOfDigits ds : Int)
  | _ =>
    let ds := t.takeWhile isDigitB
    if ds.isEmpty then none else some (natOfDigits ds : Int)

/-- JavaScript `score.split('-')`: split at every `'-'`, keeping empty parts. -/
def splitHyphen : List Char → List (List Char)
  | [] => [[]]
  | c :: cs =>
    if c = '-' then [] :: splitHyphen cs
    else
      match splitHyphen cs with
      | [] => [[c]]
      | t :: ts => (c :: t) :: ts

/-! ## Status Classifier and Display Sorter (`Home.vue`) -/

/-- A schedule-board game record; only the raw status text is consulted by the
classifier and sorter (team names, logos, scores and timestamps are carried by
the payload but never read by the modelled decision logic). -/
structure Game where
  status : List Char
deriving DecidableEq, Repr

/-- `isCompletedStatus` from `Home.vue`: lower-cased text contains
"final", "complete" or "completed". An absent status is the empty string
(`String(status || '')`). -/
def isCompletedStatus (status : List Char) : Bool :=
  let v := strLower status
  strIncludes ("final".toList) v || strIncludes ("complete".toList) v ||
    strIncludes ("completed".toList) v

/-- `isLiveStatus` from `Home.vue`. -/
def isLiveStatus (status : List Char) : Bool :=
  let v := strLower status
  strIncludes ("in progress".toList) v
    || strIncludes ("live".toList) v
    || strIncludes ("qtr".toList) v
    || strIncludes ("quarter".toList) v
    || strIncludes ("period".toList) v
    || strIncludes ("inning".toList) v

/-- The three classes produced by the Status Classifier. -/
inductive GameClass where
  | scheduled
  | live
  | final
deriving DecidableEq, Repr

/-- The classification implicit in `gameStateLabel`: completed is tested
first, then live, else scheduled. -/
def classifyStatus (status : List Char) : GameClass :=
  if isCompletedStatus status then .final
  else if isLiveStatus status then .live
  else .scheduled

/-- The spec's classifier rank: `live` → 0, `scheduled` → 1, `final` → 2. -/
def classRank : GameClass → Nat
  | .live => 0
  | .scheduled => 1
  | .final => 2

/-- `gameStateLabel` from `Home.vue`.  The live-branch text substitution
`formatLiveStatus` (regex quarter abbreviation) is abstracted as the
parameter `fmtLive`; no claim depends on it, and the theorems below hold for
every choice of `fmtLive`. -/
def gameStateLabel (fmtLive : List Char → List Char) (status : List Char) :
    List Char :=
  if isCompletedStatus status then "Complete".toList
  else if isLiveStatus status then
    let t := fmtLive status
    if t.isEmpty then "Live".toList else t
  else "Scheduled".toList

/-- `gameDisplayRank` from `Home.vue`: live is tested first. -/
def gameDisplayRank (status : List Char) : Nat :=
  if isLiveStatus status then 0
  else if isCompletedStatus status then 2
  else 1

/-- The total order used by `sortGamesForDisplay`'s comparator on
(index, game) pairs: ascending rank, ties broken by original index. -/
def rankRel (a b : Nat × Game) : Prop :=
  gameDisplayRank a.2.status < gameDisplayRank b.2.status
    ∨ (gameDisplayRank a.2.status = gameDisplayRank b.2.status ∧ a.1 ≤ b.1)

instance : DecidableRel rankRel := fun a b => by
  unfold rankRel; infer_instance

instance : IsTotal (Nat × Game) rankRel := by
  constructor
  intro a b
  unfold rankRel
  omega

instance : IsTrans (Nat × Game) rankRel := by
  constructor
  intro a b c hab hbc
  unfold rankRel at *
  omega

/-- `sortGamesForDisplay` from `Home.vue`: decorate with the input index,
sort by (rank, index) — `Array.prototype.sort` with a total-order comparator
produces exactly the order sorted by that comparator — then strip the index. -/
def sortGamesForDisplay (games : List Game) : List Game :=
  ((games.enum).insertionSort rankRel).map Prod.snd

/-! ## Schedule Aggregator (`Home.vue`) -/

/-- A league group of the schedule payload; `games = none` models a value
whose `games` field is not an array (counted as 0 games). Identifier and
name fields are carried by the payload but not read by the modelled logic. -/
structure LeagueGroup where
  games : Option (List Game)

/-- A `today`/`yesterday` payload section; `leagues = none` models a section
whose `leagues` field is not an array. -/
structure PayloadSection where
  leagues : Option (List LeagueGroup)

/-- The `/games/today` payload shape, with the legacy top-level `leagues`. -/
structure Payload where
  today : Option PayloadSection
  yesterday : Option PayloadSection
  leagues : Option (List LeagueGroup)

/-- `todayLeagues` from `Home.vue`: prefer `payload.today.leagues` when it is
an array, otherwise fall back to the legacy top-level `leagues` array. -/
def todayLeagues (p : Payload) : List LeagueGroup :=
  match p.today with
  | some sec =>
    match sec.leagues with
    | some ls => ls
    | none => p.leagues.getD []
  | none => p.leagues.getD []

/-- `yesterdayLeagues` from `Home.vue`. -/
def yesterdayLeagues (p : Payload) : List LeagueGroup :=
  match p.yesterday with
  | some sec => sec.leagues.getD []
  | none => []

/-- `totalGames` from `Home.vue`: sum of per-league game counts. -/
def totalGames (leagues : List LeagueGroup) : Nat :=
  leagues.foldl (fun count lg => count + (lg.games.map List.length).getD 0) 0

/-- `hasNoTodayGames` from `Home.vue`. -/
def hasNoTodayGames (p : Payload) : Bool :=
  totalGames (todayLeagues p) == 0

/-- `hasAnyYesterdayGames` from `Home.vue`. -/
def hasAnyYesterdayGames (p : Payload) : Bool :=
  decide (0 < totalGames (yesterdayLeagues p))

/-- The template's fallback notice condition
(`v-if="hasNoTodayGames && hasAnyYesterdayGames"`). -/
def noGamesTodayNotice (p : Payload) : Bool :=
  hasNoTodayGames p && hasAnyYesterdayGames p

/-! ## Roster Resolver (`Home.vue`) -/

/-- Is `c` kept by the slug character class `[a-z0-9]`? -/
def isSlugKeep (c : Char) : Bool :=
  (97 ≤ c.val && c.val ≤ 122) || (48 ≤ c.val && c.val ≤ 57)

/-- Replace each maximal run of characters outside `[a-z0-9]` by a single
`'-'` (the global regex replace in `slugify`).  The boolean records whether
the previous character was already replaced by a hyphen of the same run. -/
def collapseRuns : Bool → List Char → List Char
  | _, [] => []
  | inRun, c :: cs =>
    if isSlugKeep c then c :: collapseRuns false cs
    else if inRun then collapseRuns true cs
    else '-' :: collapseRuns true cs

/-- Strip leading and trailing hyphens (the regex replace `/^-+|-+$/g`). -/
def trimHyphens (s : List Char) : List Char :=
  ((s.dropWhile (· == '-')).reverse.dropWhile (· == '-')).reverse

/-- `slugify` from `Home.vue`: lower-case, collapse non-alphanumeric runs to
a single hyphen, trim boundary hyphens. -/
def slugify (value : List Char) : List Char :=
  trimHyphens (collapseRuns false (strLower value))

/-- A roster entry (`{id, name}`); absent fields are empty strings. -/
structure TeamEntry where
  name : List Char
  id : List Char
deriving DecidableEq, Repr

/-- Normalized lookup key of a roster entry
(`String(team?.name || '').toLowerCase().trim()`). -/
def entryKey (t : TeamEntry) : List Char :=
  jsTrim (strLower t.name)

/-- Normalized identifier of a roster entry (`String(team?.id || '').trim()`). -/
def entryId (t : TeamEntry) : List Char :=
  jsTrim t.id

/-- One iteration of the `buildTeamLookup` loop (`lookup[name] = id`, guarded
by `if (name && id)`): overwrite the binding at the normalized name. -/
def lookupStep (lookup : List Char → Option (List Char)) (t : TeamEntry) :
    List Char → Option (List Char) :=
  if entryKey t ≠ [] ∧ entryId t ≠ [] then
    fun k => if k = entryKey t then some (entryId t) else lookup k
  else lookup

/-- `buildTeamLookup` from `Home.vue`: later writes overwrite earlier ones;
entries whose normalized name or identifier is empty are skipped. -/
def buildTeamLookup (teams : List TeamEntry) : List Char → Option (List Char) :=
  teams.foldl lookupStep (fun _ => none)

/-- Does roster entry `t` provide a valid binding for key `k`?  (Its
normalized name equals `k`, and both normalized name and identifier are
non-empty, mirroring the `if (name && id)` guard.) -/
def matchesKey (k : List Char) (t : TeamEntry) : Bool :=
  (entryKey t == k) && !(entryKey t == []) && !(entryId t == [])

/-- `teamRoute` from `Home.vue`: mapped identifier if present (and non-empty,
per `mappedId || fallbackId`), else the slug of the display name. -/
def teamRoute (lookup : List Char → Option (List Char)) (leagueId : List Char)
    (teamName : List Char) : List Char :=
  let key := jsTrim (strLower teamName)
  let resolved :=
    match lookup key with
    | some id => if id = [] then slugify teamName else id
    | none => slugify teamName
  "/teams/".toList ++ leagueId ++ '/' :: resolved

/-! ## Player Stat Projector (`Team.vue`) -/

/-- A player row; the stat map is an association list whose key order is the
object's key insertion order (`Object.keys`). -/
structure PlayerRow where
  name : List Char
  position : List Char
  stats : List (List Char × Int)

/-- The fixed sport-aware preference order from `playerStats`. -/
def preferredOrder : List (List Char) :=
  ["points".toList, "rebounds".toList, "assists".toList, "goals".toList,
   "home_runs".toList, "rbi".toList, "hits".toList, "batting_avg".toList,
   "appearances".toList]

/-- Insert a key into the discovered-key list unless already present
(`Set.prototype.add`, keeping first-insertion order). -/
def insertKey (l : List (List Char)) (k : List Char) : List (List Char) :=
  if k ∈ l then l else l ++ [k]

/-- The union of stat keys across all players, in discovery order. -/
def discoveredKeys (players : List PlayerRow) : List (List Char) :=
  players.foldl (fun acc p => (p.stats.map Prod.fst).foldl insertKey acc) []

/-- Lexicographic strict comparison of strings by UTF-16 code unit, the
default `Array.prototype.sort` string comparator. -/
def strLtB : List Char → List Char → Bool
  | [], [] => false
  | [], _ :: _ => true
  | _ :: _, [] => false
  | a :: as, b :: bs =>
    if a.val < b.val then true
    else if b.val < a.val then false
    else strLtB as bs

/-- Non-strict version of `strLtB` (used as the sorting relation). -/
def strLeP (a b : List Char) : Prop :=
  strLtB a b = true ∨ a = b

instance : DecidableRel strLeP := fun a b => by
  unfold strLeP; infer_instance

/-- `playerStats` from `Team.vue`: preference-listed keys first (in
preference order), remaining discovered keys appended sorted. -/
def playerStats (players : List PlayerRow) : List (List Char) :=
  if players.isEmpty then []
  else
    let discovered := discoveredKeys players
    let ordered := preferredOrder.filter (fun k => decide (k ∈ discovered))
    let extra :=
      (discovered.filter (fun k => decide (k ∉ preferredOrder))).insertionSort
        strLeP
    ordered ++ extra

/-! ## Record Reconstructor (`Team.vue`, and the dashboard's `parseRecord`) -/

/-- A team-history game entry (`TeamGameHistory`); absent string fields are
empty strings. -/
structure GameH where
  home : Bool
  status : List Char
  date : List Char
  opponent : List Char
  score : List Char
deriving DecidableEq, Repr

/-- A history entry annotated with the running record
(`{ ...game, recordAfter }`). -/
structure AGame where
  game : GameH
  recordAfter : List Char
deriving DecidableEq, Repr

/-- The `"H-A"` score parse of `playedGamesWithRecord`:
`score.split('-').map(v => parseInt(v, 10))`, destructured to the first two
entries; `none` when either is missing or `NaN`. -/
def parseScorePair (score : List Char) : Option (Int × Int) :=
  let nums := (splitHyphen score).map jsParseInt
  match (nums.get? 0).bind id, (nums.get? 1).bind id with
  | some h, some a => some (h, a)
  | _, _ => none

/-- One step of the record fold in `playedGamesWithRecord`: update the
(wins, losses) counters from one game and attach `recordAfter`.  A game
whose score does not parse leaves the counters unchanged and gets an empty
`recordAfter`; a parsed tie leaves both counters unchanged but still gets
the current `"W-L"` string. -/
def annotateStep (st : Nat × Nat) (g : GameH) : (Nat × Nat) × AGame :=
  match parseScorePair g.score with
  | none => (st, ⟨g, []⟩)
  | some (h, a) =>
    let teamScore := if g.home then h else a
    let opponentScore := if g.home then a else h
    let st' :=
      if teamScore > opponentScore then (st.1 + 1, st.2)
      else if teamScore < opponentScore then (st.1, st.2 + 1)
      else st
    (st', ⟨g, natStr st'.1 ++ '-' :: natStr st'.2⟩)

/-- The record fold of `playedGamesWithRecord` over a chronological
(oldest-first) list, threading the (wins, losses) counters. -/
def annotateChron (st : Nat × Nat) : List GameH → (Nat × Nat) × List AGame
  | [] => (st, [])
  | g :: gs =>
    let (st', a) := annotateStep st g
    let (stFinal, rest) := annotateChron st' gs
    (stFinal, a :: rest)

/-- Date value used by the played-games comparator:
`Number.isFinite(Date.parse(d)) ? Date.parse(d) : 0`.  `dp` abstracts the
host `Date.parse` (`none` = `NaN`). -/
def dateVal (dp : List Char → Option Int) (g : GameH) : Int :=
  (dp g.date).getD 0

/-- The total order of the played-games comparator on (index, game) pairs:
descending date value, ties broken by original index. -/
def dateRel (dp : List Char → Option Int) (a b : Nat × GameH) : Prop :=
  dateVal dp b.2 < dateVal dp a.2
    ∨ (dateVal dp a.2 = dateVal dp b.2 ∧ a.1 ≤ b.1)

instance (dp : List Char → Option Int) : DecidableRel (dateRel dp) :=
  fun a b => by unfold dateRel; infer_instance

/-- `playedGames` from `Team.vue`: keep entries with `status === 'played'`,
sort most-recent-first (stable; unparseable dates count as 0). -/
def playedGames (dp : List Char → Option Int) (games : List GameH) :
    List GameH :=
  ((((games.filter (fun g => g.status = "played".toList)).enum).insertionSort
    (dateRel dp)).map Prod.snd)

/-- `playedGamesWithRecord` from `Team.vue`: reverse to chronological order,
fold the running record from (0, 0), reverse back to most-recent-first. -/
def playedGamesWithRecord (dp : List Char → Option Int) (games : List GameH) :
    List AGame :=
  let pg := playedGames dp games
  if pg.isEmpty then []
  else ((annotateChron (0, 0) pg.reverse).2).reverse

/-- `teamRecord` from `Team.vue`: the `recordAfter` of the first (most
recent) annotated game, empty when there is none (`|| ''`). -/
def teamRecord (dp : List Char → Option Int) (games : List GameH) :
    List Char :=
  match (playedGamesWithRecord dp games).head? with
  | none => []
  | some a => a.recordAfter

/-- The score parse of the dashboard's `parseRecord` (`Home.vue`): skip games
whose score is empty (falsy) — the `Number(…)` conversion of the two split
parts is abstracted as `num` (`none` = `NaN`). -/
def numScorePair (num : List Char → Option Int) (score : List Char) :
    Option (Int × Int) :=
  let parts := splitHyphen score
  match (parts.get? 0).bind num, (parts.get? 1).bind num with
  | some h, some a => some (h, a)
  | _, _ => none

/-- The counting loop of `parseRecord` (`Home.vue` dashboard): accumulate
(wins, losses, ties) over the games. -/
def parseRecordLoop (num : List Char → Option Int) :
    (Nat × Nat × Nat) → List GameH → Nat × Nat × Nat
  | acc, [] => acc
  | (w, l, t), g :: gs =>
    if g.score = [] then parseRecordLoop num (w, l, t) gs
    else
      match numScorePair num g.score with
      | none => parseRecordLoop num (w, l, t) gs
      | some (h, a) =>
        let teamScore := if g.home then h else a
        let opponentScore := if g.home then a else h
        let acc' :=
          if teamScore > opponentScore then (w + 1, l, t)
          else if teamScore < opponentScore then (w, l + 1, t)
          else (w, l, t + 1)
        parseRecordLoop num acc' gs

/-- `parseRecord` from `Home.vue` (dashboard): `"W-L-T"` when any tie was
counted, else `"W-L"`. -/
def parseRecord (num : List Char → Option Int) (games : List GameH) :
    List Char :=
  let (w, l, t) := parseRecordLoop num (0, 0, 0) games
  if 0 < t then natStr w ++ '-' :: (natStr l ++ '-' :: natStr t)
  else natStr w ++ '-' :: natStr l

/-! ## Concrete example inputs -/

/-- A player row whose stat keys are exactly {assists, goals, steals}. -/
def c2row : PlayerRow :=
  ⟨"p".toList, "G".toList,
   [("assists".toList, 1), ("goals".toList, 2), ("steals".toList, 3)]⟩

/-- Roster entry "Foo" → "id1" (key "foo"). -/
def c10t1 : TeamEntry := ⟨"Foo".toList, "id1".toList⟩

/-- Roster entry " foo " → "id2" (same normalized key "foo"). -/
def c10t2 : TeamEntry := ⟨" foo ".toList, "id2".toList⟩

/-- Date values for the three-game C1 example (stands in for `Date.parse`
on three parseable, increasing dates). -/
def dpEx : List Char → Option Int := fun d =>
  if d = "2024-01-01".toList then some 1
  else if d = "2024-01-02".toList then some 2
  else if d = "2024-01-03".toList then some 3
  else none

/-- The spec's Record Reconstructor example: three played home games with
scores "10-5", "3-7", "8-8", oldest first. -/
def exGames : List GameH :=
  [⟨true, "played".toList, "2024-01-01".toList, "A".toList, "10-5".toList⟩,
   ⟨true, "played".toList, "2024-01-02".toList, "B".toList, "3-7".toList⟩,
   ⟨true, "played".toList, "2024-01-03".toList, "C".toList, "8-8".toList⟩]

/-- Date values for the C3 counterexample (two parseable dates). -/
def dp3 : List Char → Option Int := fun d =>
  if d = "d1".toList then some 100
  else if d = "d2".toList then some 200
  else none

/-- C3 counterexample history: an older game with parseable score "10-5"
and a most recent game with unparseable score "x". -/
def c3games : List GameH :=
  [⟨true, "played".toList, "d1".toList, "A".toList, "10-5".toList⟩,
   ⟨true, "played".toList, "d2".toList, "B".toList, "x".toList⟩]

/-- A played game with an unparseable score. -/
def c9gx : GameH := ⟨true, "played".toList, "d".toList, "O".toList, "x".toList⟩

/-- A date parse that always fails (every date unparseable). -/
def dpNone : List Char → Option Int := fun _ => none

/-! ## Helper lemmas -/

/-- An element not satisfying `p` survives `dropWhile p`. -/
theorem mem_dropWhile_of_neg {α} (p : α → Bool) (d : α) (hd : p d = false) :
    ∀ l : List α, d ∈ l → d ∈ l.dropWhile p
  | x :: xs, h => by
    rw [List.dropWhile_cons]
    by_cases hx : p x = true
    · rcases List.mem_cons.mp h with rfl | hmem
      · rw [hd] at hx; cases hx
      · simpa [hx] using mem_dropWhile_of_neg p d hd xs hmem
    · simpa [hx] using h

/-- A kept (alphanumeric) character survives the run-collapsing pass. -/
theorem mem_collapseRuns {d : Char} (hk : isSlugKeep d = true) :
    ∀ (l : List Char) (b : Bool), d ∈ l → d ∈ collapseRuns b l
  | c :: cs, b, h => by
    unfold collapseRuns
    by_cases hc : isSlugKeep c = true
    · rcases List.mem_cons.mp h with rfl | hmem
      · simp [hc]
      · simp only [hc, if_true]
        exact List.mem_cons_of_mem _ (mem_collapseRuns hk cs false hmem)
    · rcases List.mem_cons.mp h with rfl | hmem
      · rw [hk] at hc; cases hc rfl
      · have hrec := mem_collapseRuns hk cs true hmem
        simp only [hc, if_false]
        cases b <;> simp [hrec]

/-- A non-hyphen member keeps `trimHyphens` from producing the empty list. -/
theorem trimHyphens_ne_nil {d : Char} {l : List Char} (hd : d ∈ l)
    (hne : (d == '-') = false) : trimHyphens l ≠ [] := by
  unfold trimHyphens
  intro hcontra
  have h1 : d ∈ l.dropWhile (· == '-') := mem_dropWhile_of_neg _ d hne l hd
  have h2 : d ∈ (l.dropWhile (· == '-')).reverse := List.mem_reverse.mpr h1
  have h3 : d ∈ ((l.dropWhile (· == '-')).reverse).dropWhile (· == '-') :=
    mem_dropWhile_of_neg _ d hne _ h2
  rw [List.reverse_eq_nil_iff] at hcontra
  rw [hcontra] at h3
  exact List.not_mem_nil d h3

/-- `insertKey` preserves `Nodup`. -/
theorem insertKey_nodup {l : List (List Char)} (h : l.Nodup) (k : List Char) :
    (insertKey l k).Nodup := by
  unfold insertKey
  by_cases hk : k ∈ l
  · simpa [hk] using h
  · simp [hk, List.nodup_append, h]

/-- Folding `insertKey` over any key list preserves `Nodup`. -/
theorem foldl_insertKey_nodup (ks : List (List Char)) :
    ∀ acc : List (List Char), acc.Nodup → (ks.foldl insertKey acc).Nodup := by
  induction ks with
  | nil => intro acc h; exact h
  | cons k ks ih => intro acc h; exact ih _ (insertKey_nodup h k)

/-- The discovered key union never contains duplicates. -/
theorem discoveredKeys_nodup (players : List PlayerRow) :
    (discoveredKeys players).Nodup := by
  unfold discoveredKeys
  suffices h : ∀ (ps : List PlayerRow) (acc : List (List Char)), acc.Nodup →
      (ps.foldl (fun acc p => (p.stats.map Prod.fst).foldl insertKey acc) acc).Nodup by
    exact h players [] List.nodup_nil
  intro ps
  induction ps with
  | nil => intro acc h; exact h
  | cons p ps ih => intro acc h; exact ih _ (foldl_insertKey_nodup _ _ h)

/-- A `Nodup` list whose members all equal `a`, with `a` a member, is `[a]`. -/
theorem nodup_all_eq_singleton {α} {l : List α} {a : α} (hn : l.Nodup)
    (hall : ∀ x ∈ l, x = a) (ha : a ∈ l) : l = [a] := by
  cases l with
  | nil => cases ha
  | cons x xs =>
    have hx : x = a := hall x (List.mem_cons_self x xs)
    subst hx
    have hxs : x ∉ xs := (List.nodup_cons.mp hn).1
    cases xs with
    | nil => rfl
    | cons y ys =>
      have hy : y = x := hall y (List.mem_cons_of_mem _ (List.mem_cons_self y ys))
      rw [hy] at hxs
      exact absurd (List.mem_cons_self x ys) hxs

/-- The record fold produces exactly one annotated game per input game. -/
theorem annotateChron_length (l : List GameH) :
    ∀ st : Nat × Nat, ((annotateChron st l).2).length = l.length := by
  induction l with
  | nil => intro st; rfl
  | cons g gs ih =>
    intro st
    rcases hs : annotateStep st g with ⟨st', a⟩
    rcases hc : annotateChron st' gs with ⟨stF, rest⟩
    have hlen := ih st'
    rw [hc] at hlen
    simp [annotateChron, hs, hc, hlen]

/-- Unfolding the record fold at the last (most recent) chronological game. -/
theorem annotateChron_append (l : List GameH) :
    ∀ (st : Nat × Nat) (g : GameH),
      annotateChron st (l ++ [g]) =
        ((annotateStep (annotateChron st l).1 g).1,
         (annotateChron st l).2 ++ [(annotateStep (annotateChron st l).1 g).2]) := by
  induction l with
  | nil =>
    intro st g
    rcases hs : annotateStep st g with ⟨st', a⟩
    simp [annotateChron, hs]
  | cons x xs ih =>
    intro st g
    rcases hs : annotateStep st x with ⟨st', a⟩
    rcases hc : annotateChron st' (xs ++ [g]) with ⟨stF, rest⟩
    have hrec := ih st' g
    rw [hc] at hrec
    rcases hc' : annotateChron st' xs with ⟨stF', rest'⟩
    rw [hc'] at hrec
    simp only [List.cons_append]
    simp [annotateChron, hs, hc, hc', hrec]

/-- Every digit character differs from the hyphen. -/
theorem digitChar_ne_hyphen (n : Nat) : digitChar n ≠ '-' := by
  unfold digitChar
  split <;> decide

/-- The decimal rendering never contains a hyphen. -/
theorem hyphen_not_mem_natStrAux : ∀ (fuel n : Nat), '-' ∉ natStrAux fuel n := by
  intro fuel
  induction fuel with
  | zero => intro n h; cases h
  | succ fuel ih =>
    intro n h
    unfold natStrAux at h
    by_cases hlt : n < 10
    · rw [if_pos hlt] at h
      exact digitChar_ne_hyphen n (List.mem_singleton.mp h).symm
    · rw [if_neg hlt] at h
      rcases List.mem_append.mp h with hmem | hmem
      · exact ih (n / 10) hmem
      · exact digitChar_ne_hyphen (n % 10) (List.mem_singleton.mp hmem).symm

/-- No hyphens occur in a rendered counter. -/
theorem natStr_count_hyphen (n : Nat) : (natStr n).count '-' = 0 :=
  List.count_eq_zero.mpr (hyphen_not_mem_natStrAux (n + 1) n)

/-- A rendered counter is never the empty string. -/
theorem natStr_ne_nil (n : Nat) : natStr n ≠ [] := by
  unfold natStr natStrAux
  split <;> simp

/-- A fold step yields an empty `recordAfter` exactly for an unparseable
score. -/
theorem step_recordAfter_empty_iff (st : Nat × Nat) (g : GameH) :
    ((annotateStep st g).2).recordAfter = [] ↔ parseScorePair g.score = none := by
  cases hp : parseScorePair g.score
  case none => simp [annotateStep, hp]
  case some v =>
    rcases v with ⟨h, a⟩
    simp [annotateStep, hp]

/-- The discovered keys of the C2 example row. -/
theorem c2row_keys_eval :
    discoveredKeys [c2row] = ["assists".toList, "goals".toList, "steals".toList] := by
  decide

/-! ## Theorems -/

/-- C4.  The claim is false: `gameDisplayRank` tests the live keywords
before the completed keywords, so the status "final quarter" — which the
classifier maps to `final` (rank 2 per the claimed mapping) — receives
display rank 0. -/
theorem c4_rank_counterexample :
    gameDisplayRank ("final quarter".toList) = 0
      ∧ classifyStatus ("final quarter".toList) = GameClass.final
      ∧ classRank (classifyStatus ("final quarter".toList)) = 2
      ∧ gameDisplayRank ("final quarter".toList)
          ≠ classRank (classifyStatus ("final quarter".toList)) := by
  decide

/-- C4 (amended).  The display rank is 0 whenever the status matches a live
keyword — even when the classifier maps it to `final` — and otherwise equals
the rank of the classification (`live` → 0, `scheduled` → 1, `final` → 2). -/
theorem c4_rank_amended (s : List Char) :
    gameDisplayRank s = if isLiveStatus s then 0 else classRank (classifyStatus s) := by
  unfold gameDisplayRank classifyStatus
  cases hL : isLiveStatus s <;> cases hC : isCompletedStatus s <;>
    simp [hL, hC, classRank]

/-- C8.  Any status whose lower-cased text contains "final" is classified
`final` and labelled with the fixed string "Complete", for every choice of
the live-label formatter. -/
theorem c8_final_is_complete (fmtLive : List Char → List Char) (s : List Char)
    (h : strIncludes ("final".toList) (strLower s) = true) :
    classifyStatus s = GameClass.final ∧ gameStateLabel fmtLive s = "Complete".toList := by
  have hC : isCompletedStatus s = true := by
    unfold isCompletedStatus
    simp only [h, Bool.true_or]
  constructor
  · unfold classifyStatus
    simp [hC]
  · unfold gameStateLabel
    simp [hC]

/-- C8 witness: "Final 4th Quarter" contains live keywords yet is classified
`final` and labelled "Complete". -/
theorem c8_final_is_complete_witness :
    classifyStatus ("Final 4th Quarter".toList) = GameClass.final
      ∧ gameStateLabel (fun t => t) ("Final 4th Quarter".toList) = "Complete".toList :=
  c8_final_is_complete (fun t => t) ("Final 4th Quarter".toList) (by decide)

/-- C7.  The "no games today" notice is shown iff the total game count over
the today leagues is zero and the total over the yesterday leagues is
positive; in particular, when both totals are zero the notice is off. -/
theorem c7_notice_iff (p : Payload) :
    (noGamesTodayNotice p = true
        ↔ totalGames (todayLeagues p) = 0 ∧ 0 < totalGames (yesterdayLeagues p))
      ∧ (totalGames (todayLeagues p) = 0 → totalGames (yesterdayLeagues p) = 0 →
          noGamesTodayNotice p = false) := by
  constructor
  · unfold noGamesTodayNotice hasNoTodayGames hasAnyYesterdayGames
    simp
  · intro h0 h1
    unfold noGamesTodayNotice hasNoTodayGames hasAnyYesterdayGames
    simp [h0, h1]

/-- C7 witness: the empty payload (no sections at all) shows no notice. -/
theorem c7_notice_iff_witness :
    noGamesTodayNotice ⟨none, none, none⟩ = false :=
  (c7_notice_iff ⟨none, none, none⟩).2 (by decide) (by decide)

/-- C6.  The Display Sorter is stable: the sorted index-decorated sequence is
a permutation of the input decoration, and any two entries with equal
display rank appear in increasing original-index order; stripping the
indices yields `sortGamesForDisplay`. -/
theorem c6_sort_stable (games : List Game) :
    ((games.enum).insertionSort rankRel).Perm games.enum
      ∧ ((games.enum).insertionSort rankRel).Pairwise
          (fun a b => gameDisplayRank a.2.status = gameDisplayRank b.2.status → a.1 ≤ b.1)
      ∧ sortGamesForDisplay games = ((games.enum).insertionSort rankRel).map Prod.snd := by
  refine ⟨List.perm_insertionSort rankRel games.enum, ?_, rfl⟩
  have hs : ((games.enum).insertionSort rankRel).Pairwise rankRel :=
    List.sorted_insertionSort rankRel games.enum
  exact hs.imp (fun hab heq => by
    rcases hab with hlt | ⟨_, hle⟩
    · omega
    · exact hle)

/-- C6 witness: the stability permutation at a concrete four-game input. -/
theorem c6_sort_stable_witness :
    ((([⟨"final".toList⟩, ⟨"live".toList⟩, ⟨[]⟩,
          ⟨"2nd quarter".toList⟩] : List Game).enum).insertionSort
        rankRel).Perm
      (([⟨"final".toList⟩, ⟨"live".toList⟩, ⟨[]⟩,
          ⟨"2nd quarter".toList⟩] : List Game).enum) :=
  (c6_sort_stable [⟨"final".toList⟩, ⟨"live".toList⟩, ⟨[]⟩,
      ⟨"2nd quarter".toList⟩]).1

/-- C5.  The claim is false in its non-emptiness part: the non-empty name
"!!!" (no alphanumeric characters) slugifies to the empty identifier. -/
theorem c5_slug_counterexample :
    slugify ("!!!".toList) = [] ∧ "!!!".toList ≠ ([] : List Char) := by
  decide

/-- C5 (amended).  The fallback identifier is computed by the described
pure algorithm (hence deterministic) — e.g. "Oklahoma City Thunder" slugs to
"oklahoma-city-thunder" — and it is non-empty for every name containing at
least one character that is alphanumeric after lower-casing. -/
theorem c5_slug_amended :
    slugify ("Oklahoma City Thunder".toList) = "oklahoma-city-thunder".toList
      ∧ ∀ s : List Char, (∃ c ∈ s, isSlugKeep c.toLower = true) → slugify s ≠ [] := by
  constructor
  · decide
  · rintro s ⟨c, hcs, hkeep⟩
    unfold slugify
    have hd : c.toLower ∈ strLower s := List.mem_map_of_mem Char.toLower hcs
    have h1 : c.toLower ∈ collapseRuns false (strLower s) :=
      mem_collapseRuns hkeep (strLower s) false hd
    have hne : (c.toLower == '-') = false := by
      cases heq : c.toLower == '-'
      · rfl
      · have : c.toLower = '-' := by simpa using heq
        rw [this] at hkeep
        exact absurd hkeep (by decide)
    exact trimHyphens_ne_nil h1 hne

/-- C5 witness: a roster-less name yields a non-empty slug. -/
theorem c5_slug_amended_witness : slugify ("Oklahoma City Thunder".toList) ≠ [] :=
  c5_slug_amended.2 ("Oklahoma City Thunder".toList) (by decide)

/-- C2.  The claim is false: the preference list orders `assists` before
`goals`, so the discovered keys {assists, goals, steals} project to
[assists, goals, steals], not [goals, assists, steals]. -/
theorem c2_stats_counterexample :
    playerStats [c2row] = ["assists".toList, "goals".toList, "steals".toList]
      ∧ playerStats [c2row]
          ≠ ["goals".toList, "assists".toList, "steals".toList] := by
  decide

/-- C2 (amended).  Every player collection whose discovered stat keys are
exactly {assists, goals, steals} projects to the ordered key sequence
[assists, goals, steals]: the preference-listed keys first in preference
order (`assists` precedes `goals` there), the rest appended alphabetically. -/
theorem c2_stats_amended (players : List PlayerRow)
    (h : ∀ k, k ∈ discoveredKeys players
        ↔ k ∈ ["assists".toList, "goals".toList, "steals".toList]) :
    playerStats players = ["assists".toList, "goals".toList, "steals".toList] := by
  unfold playerStats
  cases hp : players.isEmpty
  case true =>
    have hnil : players = [] := by simpa using hp
    subst hnil
    have := (h ("assists".toList)).mpr (by decide)
    simp [discoveredKeys] at this
  case false =>
    have hOrd : preferredOrder.filter (fun k => decide (k ∈ discoveredKeys players))
        = ["assists".toList, "goals".toList] := by
      have hcong : ∀ k ∈ preferredOrder,
          (decide (k ∈ discoveredKeys players))
            = (decide (k ∈ ["assists".toList, "goals".toList, "steals".toList])) :=
        fun k _ => by simp [h k]
      rw [List.filter_congr hcong]
      decide
    have hExt : (discoveredKeys players).filter (fun k => decide (k ∉ preferredOrder))
        = ["steals".toList] := by
      apply nodup_all_eq_singleton ((discoveredKeys_nodup players).filter _)
      · intro x hx
        have hx' := List.mem_filter.mp hx
        have hx3 := (h x).mp hx'.1
        have hxnp : x ∉ preferredOrder := by simpa using hx'.2
        simp only [List.mem_cons, List.not_mem_nil, or_false] at hx3
        rcases hx3 with rfl | rfl | rfl
        · exact absurd (by decide) hxnp
        · exact absurd (by decide) hxnp
        · rfl
      · exact List.mem_filter.mpr ⟨(h _).mpr (by decide), by decide⟩
    simp only [hp, Bool.false_eq_true, if_false, hOrd, hExt]
    decide

/-- C2 witness: the amended projection at the concrete example row. -/
theorem c2_stats_amended_witness :
    playerStats [c2row] = ["assists".toList, "goals".toList, "steals".toList] :=
  c2_stats_amended [c2row] (fun k => by rw [c2row_keys_eval])

/-- The lookup fold resolves a key through the *last* matching entry:
scanning the reversed entry list, the first match wins; with no match the
accumulator decides. -/
theorem foldl_lookupStep_find (ts : List TeamEntry) :
    ∀ (acc : List Char → Option (List Char)) (k : List Char),
      (ts.foldl lookupStep acc) k =
        match ts.reverse.find? (matchesKey k) with
        | some t => some (entryId t)
        | none => acc k := by
  induction ts with
  | nil => intro acc k; rfl
  | cons t ts ih =>
    intro acc k
    rw [List.foldl_cons, ih, List.reverse_cons, List.find?_append]
    cases hfind : ts.reverse.find? (matchesKey k)
    case some u => simp
    case none =>
      simp only [Option.none_or]
      cases hm : matchesKey k t
      case true =>
        rw [List.find?_cons_of_pos _ hm]
        have hparts := hm
        unfold matchesKey at hparts
        simp only [Bool.and_eq_true, beq_iff_eq, Bool.not_eq_true', beq_eq_false_iff_ne,
          ne_eq] at hparts
        obtain ⟨⟨hkey, hne1⟩, hne2⟩ := hparts
        simp [lookupStep, hne1, hne2, hkey.symm]
      case false =>
        rw [List.find?_cons_of_neg _ (by simp [hm])]
        simp only [List.find?_nil]
        by_cases hval : entryKey t ≠ [] ∧ entryId t ≠ []
        · have hk : k ≠ entryKey t := by
            intro hk
            have hkne : k ≠ [] := fun hke => hval.1 (hk.symm.trans hke)
            have : matchesKey k t = true := by
              unfold matchesKey
              simp [hk.symm, hkne, hval.2]
            rw [this] at hm
            cases hm
          simp [lookupStep, hval, hk]
        · simp [lookupStep, hval]

/-- C10.  Last occurrence wins: when two valid entries share a normalized
key and no later entry binds that key, the built lookup resolves the key to
the identifier of the later of the two. -/
theorem c10_last_wins (pre mid post : List TeamEntry) (t1 t2 : TeamEntry)
    (k : List Char) (h1 : matchesKey k t1 = true) (h2 : matchesKey k t2 = true)
    (hpost : ∀ t ∈ post, matchesKey k t = false) :
    buildTeamLookup (pre ++ t1 :: (mid ++ t2 :: post)) k = some (entryId t2) := by
  unfold buildTeamLookup
  rw [foldl_lookupStep_find]
  have hrev : (pre ++ t1 :: (mid ++ t2 :: post)).reverse
      = post.reverse ++ t2 :: (mid.reverse ++ t1 :: pre.reverse) := by
    simp
  rw [hrev, List.find?_append]
  have hpostnone : post.reverse.find? (matchesKey k) = none :=
    List.find?_eq_none.mpr (fun t ht => by
      simp [hpost t (List.mem_reverse.mp ht)])
  rw [hpostnone]
  simp only [Option.none_or]
  rw [List.find?_cons_of_pos _ h2]

/-- C10 witness: entries "Foo"→"id1" and " foo "→"id2" both normalize to the
key "foo"; the lookup resolves "foo" to "id2". -/
theorem c10_last_wins_witness :
    buildTeamLookup [c10t1, c10t2] ("foo".toList) = some ("id2".toList) :=
  c10_last_wins [] [] [] c10t1 c10t2 ("foo".toList) (by decide) (by decide)
    (fun t ht => absurd ht (List.not_mem_nil t))

/-- C9.  A played game with an unparseable score contributes an annotated
game with empty `recordAfter`, leaves the (wins, losses) counters unchanged
for the rest of the fold, and the reconstruction still emits one annotated
game per played game (it is never aborted). -/
theorem c9_failsoft (dp : List Char → Option Int) (games : List GameH)
    (st : Nat × Nat) (g : GameH) (gs : List GameH)
    (h : parseScorePair g.score = none) :
    annotateChron st (g :: gs)
        = ((annotateChron st gs).1, ⟨g, []⟩ :: (annotateChron st gs).2)
      ∧ (playedGamesWithRecord dp games).length = (playedGames dp games).length := by
  constructor
  · have hstep : annotateStep st g = (st, ⟨g, []⟩) := by
      simp [annotateStep, h]
    rcases hc : annotateChron st gs with ⟨stF, rest⟩
    simp [annotateChron, hstep, hc]
  · unfold playedGamesWithRecord
    cases hemp : (playedGames dp games).isEmpty
    case true =>
      have : playedGames dp games = [] := by simpa using hemp
      simp [this]
    case false =>
      have hne : playedGames dp games ≠ [] := by simpa using hemp
      simp [hne, annotateChron_length]

/-- C9 witness: a single played game with score "x". -/
theorem c9_failsoft_witness :
    annotateChron (0, 0) [c9gx] = ((0, 0), [⟨c9gx, []⟩])
      ∧ (playedGamesWithRecord dpNone [c9gx]).length
          = (playedGames dpNone [c9gx]).length :=
  c9_failsoft dpNone [c9gx] (0, 0) c9gx [] (by decide)

/-- C3.  The claim is false: with an older parseable game "10-5" and a most
recent unparseable game "x", the overall record is empty even though a
played game has a parseable score. -/
theorem c3_team_record_counterexample :
    teamRecord dp3 c3games = []
      ∧ (⟨true, "played".toList, "d1".toList, "A".toList, "10-5".toList⟩ : GameH)
          ∈ playedGames dp3 c3games
      ∧ parseScorePair ("10-5".toList) = some (10, 5) := by
  decide

/-- C3 (amended).  The overall record is the `recordAfter` of the first
(most recent) annotated played game, and it is empty exactly when there are
no played games or the most recent played game's score is unparseable —
regardless of whether older games have parseable scores. -/
theorem c3_team_record_amended (dp : List Char → Option Int)
    (games : List GameH) :
    teamRecord dp games
        = (((playedGamesWithRecord dp games).head?).map AGame.recordAfter).getD []
      ∧ ((playedGames dp games).head? = none → teamRecord dp games = [])
      ∧ ∀ g, (playedGames dp games).head? = some g →
          (teamRecord dp games = [] ↔ parseScorePair g.score = none) := by
  refine ⟨?_, ?_, ?_⟩
  · unfold teamRecord
    cases h : (playedGamesWithRecord dp games).head? <;> simp [h]
  · intro h
    cases hpg : playedGames dp games
    case nil =>
      unfold teamRecord playedGamesWithRecord
      simp [hpg]
    case cons p0 rest =>
      rw [hpg] at h
      cases h
  · intro g hg
    cases hpg : playedGames dp games
    case nil =>
      rw [hpg] at hg
      cases hg
    case cons p0 rest =>
      rw [hpg] at hg
      have hg0 : g = p0 := by injection hg with h'; exact h'.symm
      subst hg0
      have hpgwr : playedGamesWithRecord dp games
          = ((annotateStep (annotateChron (0, 0) rest.reverse).1 g).2)
              :: ((annotateChron (0, 0) rest.reverse).2).reverse := by
        unfold playedGamesWithRecord
        rw [hpg]
        simp [annotateChron_append]
      unfold teamRecord
      rw [hpgwr]
      simp only [List.head?_cons, Option.some.injEq]
      exact step_recordAfter_empty_iff _ g

/-- C3 witness: the amended criterion at the concrete two-game history (the
most recent score "x" is unparseable, so the record is empty). -/
theorem c3_team_record_amended_witness : teamRecord dp3 c3games = [] :=
  ((c3_team_record_amended dp3 c3games).2.2
      ⟨true, "played".toList, "d2".toList, "B".toList, "x".toList⟩
      (by decide)).mpr (by decide)

/-- C1.  The claim is false: on the three-game history the running records
(most-recent-first) are "1-1", "1-1", "1-0" — the tied game "8-8" changes
no counter and no tie component is ever emitted — so the first entry's
`recordAfter` is "1-1", not "1-1-1". -/
theorem c1_record_counterexample :
    ((playedGamesWithRecord dpEx exGames).map AGame.recordAfter)
        = ["1-1".toList, "1-1".toList, "1-0".toList]
      ∧ ((playedGamesWithRecord dpEx exGames).head?).map AGame.recordAfter
          ≠ some ("1-1-1".toList) := by
  decide

/-- C1 (amended).  On the example history the running records
(oldest→newest) are "1-0", "1-1", "1-1" and the overall record is "1-1",
while the dashboard's aggregate `parseRecord` yields "1-1-1"; in general a
running `recordAfter` is empty or of "W-L" shape (exactly one hyphen, no tie
component), and `parseRecord` is of "W-L" shape when zero ties were counted
and of "W-L-T" shape (two hyphens) once any tie is recorded. -/
theorem c1_record_amended :
    (((playedGamesWithRecord dpEx exGames).map AGame.recordAfter).reverse
          = ["1-0".toList, "1-1".toList, "1-1".toList]
        ∧ teamRecord dpEx exGames = "1-1".toList
        ∧ parseRecord jsParseInt exGames = "1-1-1".toList)
      ∧ (∀ (st : Nat × Nat) (g : GameH),
          ((annotateStep st g).2).recordAfter = []
            ∨ ((annotateStep st g).2).recordAfter.count '-' = 1)
      ∧ ∀ (num : List Char → Option Int) (games : List GameH),
          ((parseRecordLoop num (0, 0, 0) games).2.2 = 0 →
              (parseRecord num games).count '-' = 1)
            ∧ (0 < (parseRecordLoop num (0, 0, 0) games).2.2 →
              (parseRecord num games).count '-' = 2) := by
  refine ⟨by decide, ?_, ?_⟩
  · intro st g
    cases hp : parseScorePair g.score
    case none => left; simp [annotateStep, hp]
    case some v =>
      rcases v with ⟨h, a⟩
      right
      simp [annotateStep, hp, List.count_append, List.count_cons,
        natStr_count_hyphen]
  · intro num games
    rcases hploop : parseRecordLoop num (0, 0, 0) games with ⟨w, l, t⟩
    constructor
    · intro h0
      simp only at h0
      unfold parseRecord
      rw [hploop]
      subst h0
      simp [List.count_append, List.count_cons, natStr_count_hyphen]
    · intro hpos
      simp only at hpos
      unfold parseRecord
      rw [hploop]
      simp [hpos, List.count_append, List.count_cons, natStr_count_hyphen]

/-- C1 witness: the example history records a tie, and the aggregate
`parseRecord` string then has a tie component (two hyphens). -/
theorem c1_record_amended_witness :
    0 < (parseRecordLoop jsParseInt (0, 0, 0) exGames).2.2
      ∧ (parseRecord jsParseInt exGames).count '-' = 2 :=
  ⟨by decide, (c1_record_amended.2.2 jsParseInt exGames).2 (by decide)⟩

end Scorecheck
